import Mathlib

/-!
Shallow embedding of the PDF-extraction pipeline (app.py, extract_pdf_with_gemini.py):
the per-page extraction loop `extract_pdf_content_with_gemini`, the page persister
`save_page_to_database`, the dimension resolver `get_or_create_crime_head_id`, the
purge helper `clear_report_data` and the resume lookup `get_last_processed_page`.

Modelling conventions:
- Python/JSON values are the inductive `JVal`; Python dicts are association lists
  with Python dict update semantics (`setKey` replaces in place, appends new keys).
- The external world (HTTP responses, database connectivity, injected insert
  failures) is an explicit environment; the MySQL store is the record `DB`, a
  transaction is modelled by running the whole body in `Except` and returning the
  original store on error (rollback) or the updated store on success (commit).
- Percentages `round(x * 100, 2)` are represented exactly as integer hundredths of
  a percent (`divRound`, round-half-up on exact rationals); both the code model and
  the spec-worded model use the same representation, so the comparison between them
  is unaffected by the representation choice.
- Error strings are opaque descriptions; no claim inspects their text.
-/

namespace PdfApp

/-- JSON / Python values as handled by the pipeline. -/
inductive JVal where
  | null : JVal
  | int (n : Int) : JVal
  | bool (b : Bool) : JVal
  | str (s : String) : JVal
  | arr (xs : List JVal) : JVal
  | obj (kvs : List (String × JVal)) : JVal

/-- First-match key lookup in an association list (Python dict lookup). -/
def lookupKey (kvs : List (String × JVal)) (k : String) : Option JVal :=
  match kvs with
  | [] => none
  | (k1, v) :: rest => if k1 = k then some v else lookupKey rest k

/-- Python dict assignment: replace the value at an existing key in place, or
append the new key at the end. -/
def setKey (kvs : List (String × JVal)) (k : String) (v : JVal) : List (String × JVal) :=
  match kvs with
  | [] => [(k, v)]
  | (k1, v1) :: rest => if k1 = k then (k, v) :: rest else (k1, v1) :: setKey rest k v

/-- Python truthiness of a value. -/
def pyTruthy : JVal → Bool
  | JVal.null => false
  | JVal.int n => n != 0
  | JVal.bool b => b
  | JVal.str s => s != ""
  | JVal.arr xs => !xs.isEmpty
  | JVal.obj kvs => !kvs.isEmpty

/-- Python str.strip(): drop leading and trailing whitespace (computable model
of String.trim over the character list). -/
def pyStrip (s : String) : String :=
  String.mk (((s.toList.dropWhile Char.isWhitespace).reverse.dropWhile
    Char.isWhitespace).reverse)

/-- Python `d.get(k, default)`: raises AttributeError on non-dicts. -/
def pyGetD (v : JVal) (k : String) (d : JVal) : Except String JVal :=
  match v with
  | JVal.obj kvs => Except.ok ((lookupKey kvs k).getD d)
  | _ => Except.error "AttributeError: value has no attribute get"

/-- Python `int(x)` on the values the pipeline can see (no floats occur). -/
def pyToInt : JVal → Except String Int
  | JVal.int n => Except.ok n
  | JVal.bool b => Except.ok (if b then 1 else 0)
  | JVal.str s =>
      match (pyStrip s).toInt? with
      | some n => Except.ok n
      | none => Except.error "ValueError: invalid literal for int"
  | JVal.null => Except.error "TypeError: int of NoneType"
  | JVal.arr _ => Except.error "TypeError: int of list"
  | JVal.obj _ => Except.error "TypeError: int of dict"

/-- Python iteration `for x in v`: lists yield elements, strings yield their
characters, dicts yield their keys, other values raise TypeError. -/
def iterElems : JVal → Except String (List JVal)
  | JVal.arr xs => Except.ok xs
  | JVal.str s => Except.ok (s.toList.map (fun c => JVal.str (String.mk [c])))
  | JVal.obj kvs => Except.ok (kvs.map (fun p => JVal.str p.1))
  | _ => Except.error "TypeError: value is not iterable"

/-- Round a/b to the nearest integer (half away from zero upward), exact on
integers; used to represent round(x, 2) on hundredths. -/
def divRound (a b : Int) : Int :=
  if b < 0 then Int.fdiv (2 * (-a) + (-b)) (2 * (-b))
  else Int.fdiv (2 * a + b) (2 * b)

/-- The derived detection rate as stored by the code, in hundredths of a percent:
round((detected / registered) * 100, 2) when registered is greater than 0, else 0
(app.py line 150). -/
def detectionRate (registered detected : Int) : Int :=
  if registered > 0 then divRound (10000 * detected) registered else 0

/-- The derived conviction rate as stored by the code, in hundredths of a percent:
round((convicted / decided) * 100, 2) when decided is greater than 0, else 0
(app.py line 179). -/
def convictionRate (decided convicted : Int) : Int :=
  if decided > 0 then divRound (10000 * convicted) decided else 0

/-- Modelled from the spec words of claim C7, for comparison with the code: the
stored detection rate is 0 when registered = 0 and round(detected/registered*100, 2)
otherwise, in the same hundredths representation. -/
def specDetectionRate (registered detected : Int) : Int :=
  if registered = 0 then 0 else divRound (10000 * detected) registered

/-- The crime_heads dimension table: (id, name) rows plus the auto-increment
counter. The store enforces a unique index on name (errno 1062 on conflict). -/
structure HeadsState where
  heads : List (Nat × String)
  nextId : Nat
deriving Repr, DecidableEq

/-- SELECT id FROM crime_heads WHERE name = nm (first match). -/
def lookupHead (heads : List (Nat × String)) (nm : String) : Option Nat :=
  match heads with
  | [] => none
  | (i, s) :: rest => if s = nm then some i else lookupHead rest nm

/-- INSERT INTO crime_heads with the unique-name constraint: duplicate names
raise the duplicate-entry error, otherwise the row is appended and the
auto-increment id returned (cursor.lastrowid). -/
def dbInsertHead (s : HeadsState) (nm : String) : Except Unit (Nat × HeadsState) :=
  if (lookupHead s.heads nm).isSome then Except.error ()
  else Except.ok (s.nextId, ⟨s.heads ++ [(s.nextId, nm)], s.nextId + 1⟩)

/-- Concurrent-writer step between the SELECT miss and the INSERT of the
resolver: when active, an independent transaction commits the same label
(subject to the same unique constraint). -/
def raceStep (race : Bool) (s : HeadsState) (nm : String) : HeadsState :=
  if race then
    match dbInsertHead s nm with
    | Except.ok p => p.2
    | Except.error _ => s
  else s

/-- get_or_create_crime_head_id (app.py lines 72-102): falsy names resolve to
None; otherwise strip, SELECT by exact name, and on a miss INSERT; a duplicate
conflict (errno 1062) is answered by re-running the SELECT; any other insert
error yields None. `race` injects a concurrent transaction committing the same
label between the SELECT and the INSERT; `otherErr` injects a non-duplicate
insert error. Non-string truthy names raise AttributeError at strip. -/
def get_or_create_crime_head_id (race : Bool) (otherErr : Bool) (s : HeadsState)
    (head_name : JVal) : Except String (Option Nat × HeadsState) :=
  if pyTruthy head_name = false then Except.ok (none, s)
  else
    match head_name with
    | JVal.str raw =>
        match lookupHead s.heads (pyStrip raw) with
        | some i => Except.ok (some i, s)
        | none =>
            if otherErr then Except.ok (none, s)
            else
              match dbInsertHead (raceStep race s (pyStrip raw)) (pyStrip raw) with
              | Except.ok p => Except.ok (some p.1, p.2)
              | Except.error _ =>
                  match lookupHead (raceStep race s (pyStrip raw)).heads (pyStrip raw) with
                  | some i => Except.ok (some i, raceStep race s (pyStrip raw))
                  | none => Except.ok (none, raceStep race s (pyStrip raw))
    | _ => Except.error "AttributeError: value has no attribute strip"

/-- One crime_statistics fact row. The detection percentage is stored in
hundredths of a percent. -/
structure FactRow where
  report_id : Int
  head_id : Nat
  year : Option Int
  period : String
  registered : Int
  detected : Int
  detection_percent : Int
  page_number : Int
deriving Repr, DecidableEq

/-- One pending_cases_by_head row. -/
structure PendingRow where
  report_id : Int
  head_id : Nat
  m0_3 : Int
  m3_6 : Int
  m6_12 : Int
  above_1_year : Int
deriving Repr, DecidableEq

/-- One conviction_stats row. The conviction percentage is stored in hundredths
of a percent. -/
structure ConvRow where
  report_id : Int
  year : Option Int
  decided : Int
  convicted : Int
  acquitted : Int
  conviction_percent : Int
  page_number : Int
deriving Repr, DecidableEq

/-- The relational store as the pipeline sees it. -/
structure DB where
  heads : HeadsState
  facts : List FactRow
  pending : List PendingRow
  convictions : List ConvRow
deriving Repr, DecidableEq

def emptyHeads : HeadsState := ⟨[], 1⟩

def emptyDB : DB := ⟨emptyHeads, [], [], []⟩

/-- Environment of one save_page_to_database call: connection success, an
injected failure schedule for the data INSERTs of this call (indexed by insert
order), and per-iteration injections for the head resolver. -/
structure SaveEnv where
  connOk : Bool
  insertFail : Nat → Bool
  headErr : Nat → Bool
  race : Nat → Bool

/-- Working state of one page transaction: the transaction-local store view,
the count of data INSERTs executed so far, and processed_items. -/
structure TxState where
  db : DB
  tick : Nat
  processed : Nat
deriving Repr, DecidableEq

/-- Execute the crime_statistics INSERT of one stat row (may fail per schedule). -/
def execFact (env : SaveEnv) (st : TxState) (row : FactRow) : Except String TxState :=
  if env.insertFail st.tick then Except.error "DB error: INSERT crime_statistics failed"
  else Except.ok { st with db := { st.db with facts := st.db.facts ++ [row] }, tick := st.tick + 1 }

/-- Execute the pending_cases_by_head INSERT of one stat row. -/
def execPending (env : SaveEnv) (st : TxState) (row : PendingRow) : Except String TxState :=
  if env.insertFail st.tick then Except.error "DB error: INSERT pending_cases_by_head failed"
  else Except.ok { st with db := { st.db with pending := st.db.pending ++ [row] }, tick := st.tick + 1 }

/-- Execute the conviction_stats INSERT. -/
def execConv (env : SaveEnv) (st : TxState) (row : ConvRow) : Except String TxState :=
  if env.insertFail st.tick then Except.error "DB error: INSERT conviction_stats failed"
  else Except.ok { st with db := { st.db with convictions := st.db.convictions ++ [row] }, tick := st.tick + 1 }

/-- Month names indexed 1-12 as in the source. -/
def monthNames : List String :=
  ["", "January", "February", "March", "April", "May", "June",
   "July", "August", "September", "October", "November", "December"]

/-- Period string from the optional month (app.py lines 120-125): None and 0 are
falsy, out-of-range months keep the Full Year default. -/
def periodOf (month : Option Int) : String :=
  match month with
  | none => "Full Year"
  | some m =>
      if m = 0 then "Full Year"
      else if 1 ≤ m ∧ m ≤ 12 then monthNames.getD m.toNat "Full Year"
      else "Full Year"

/-- stats_list selection of save_page_to_database (app.py lines 128-135): take
the crime_statistics value (defaulting to the empty list); when that value is
not a list, fall back to the rows key, then the data key, then wrap the whole
page dict as a one-element list. -/
def extractStatsList (pageKvs : List (String × JVal)) : JVal :=
  let cs := (lookupKey pageKvs "crime_statistics").getD (JVal.arr [])
  match cs with
  | JVal.arr xs => JVal.arr xs
  | _ =>
      match lookupKey pageKvs "rows" with
      | some r => r
      | none =>
          match lookupKey pageKvs "data" with
          | some d => d
          | none => JVal.arr [JVal.obj pageKvs]

/-- Python `int(stat.get(k, 0))` as used throughout the save loop. -/
def pyStatInt (stat : JVal) (k : String) : Except String Int :=
  match pyGetD stat k (JVal.int 0) with
  | Except.error e => Except.error e
  | Except.ok v => pyToInt v

/-- Body of the per-stat loop of save_page_to_database (app.py lines 138-167):
skip rows with a falsy crime_head, resolve the head (skipping the row when the
resolver yields a falsy id), parse registered/detected, derive the detection
rate, insert the fact row, parse the four pending buckets, insert the pending
row, and count the item as processed. `i` is the loop index used to address the
per-iteration resolver injections. -/
def processStat (env : SaveEnv) (i : Nat) (report_id : Int) (year : Option Int)
    (period : String) (page_number : Int) (st : TxState) (stat : JVal) :
    Except String TxState :=
  match pyGetD stat "crime_head" JVal.null with
  | Except.error e => Except.error e
  | Except.ok ch =>
    if pyTruthy ch = false then Except.ok st
    else
      match get_or_create_crime_head_id (env.race i) (env.headErr i) st.db.heads ch with
      | Except.error e => Except.error e
      | Except.ok rs =>
        match rs.1 with
        | none => Except.ok { st with db := { st.db with heads := rs.2 } }
        | some hid =>
          if hid = 0 then Except.ok { st with db := { st.db with heads := rs.2 } }
          else
            match pyStatInt stat "registered" with
            | Except.error e => Except.error e
            | Except.ok reg =>
              match pyStatInt stat "detected" with
              | Except.error e => Except.error e
              | Except.ok det =>
                match execFact env { st with db := { st.db with heads := rs.2 } }
                    ⟨report_id, hid, year, period, reg, det, detectionRate reg det, page_number⟩ with
                | Except.error e => Except.error e
                | Except.ok st2 =>
                  match pyStatInt stat "pending_0_3" with
                  | Except.error e => Except.error e
                  | Except.ok p03 =>
                    match pyStatInt stat "pending_3_6" with
                    | Except.error e => Except.error e
                    | Except.ok p36 =>
                      match pyStatInt stat "pending_6_12" with
                      | Except.error e => Except.error e
                      | Except.ok p612 =>
                        match pyStatInt stat "pending_1_year" with
                        | Except.error e => Except.error e
                        | Except.ok p1y =>
                          match execPending env st2 ⟨report_id, hid, p03, p36, p612, p1y⟩ with
                          | Except.error e => Except.error e
                          | Except.ok st3 =>
                            Except.ok { st3 with processed := st3.processed + 1 }

/-- Fold processStat over the stats list, threading the loop index. -/
def processStats (env : SaveEnv) (report_id : Int) (year : Option Int)
    (period : String) (page_number : Int) :
    Nat → TxState → List JVal → Except String TxState
  | _, st, [] => Except.ok st
  | i, st, stat :: rest =>
      match processStat env i report_id year period page_number st stat with
      | Except.error e => Except.error e
      | Except.ok st1 => processStats env report_id year period page_number (i + 1) st1 rest

/-- The decided count after the replacement of app.py lines 176-177: when
decided is 0 and convicted + acquitted is positive, decided becomes that sum. -/
def inferDecided (dec0 conv acq : Int) : Int :=
  if dec0 = 0 ∧ conv + acq > 0 then conv + acq else dec0

/-- Conviction block of save_page_to_database (app.py lines 170-185) applied to
the conviction_stats value: a falsy value is skipped; decided is replaced per
inferDecided; the conviction rate is derived and the row inserted. -/
def processConvictionVal (env : SaveEnv) (report_id : Int) (year : Option Int)
    (page_number : Int) (conviction : JVal) (st : TxState) :
    Except String TxState :=
  if pyTruthy conviction = false then Except.ok st
  else
    match pyStatInt conviction "decided" with
    | Except.error e => Except.error e
    | Except.ok dec0 =>
      match pyStatInt conviction "convicted" with
      | Except.error e => Except.error e
      | Except.ok conv =>
        match pyStatInt conviction "acquitted" with
        | Except.error e => Except.error e
        | Except.ok acq =>
          execConv env st ⟨report_id, year, inferDecided dec0 conv acq, conv, acq,
            convictionRate (inferDecided dec0 conv acq) conv, page_number⟩

/-- Conviction block on the page dict: conviction_stats defaults to the empty
dict (falsy). -/
def processConviction (env : SaveEnv) (report_id : Int) (year : Option Int)
    (page_number : Int) (pageKvs : List (String × JVal)) (st : TxState) :
    Except String TxState :=
  processConvictionVal env report_id year page_number
    ((lookupKey pageKvs "conviction_stats").getD (JVal.obj [])) st

/-- The page_number value read at the top of the transaction; non-integer
values are modelled as a transaction error (the store would reject them); the
pipeline always supplies integers. -/
def pageNumInt (pageKvs : List (String × JVal)) : Except String Int :=
  match (lookupKey pageKvs "page_number").getD (JVal.int 0) with
  | JVal.int n => Except.ok n
  | _ => Except.error "DB error: page_number is not an integer"

/-- The transaction body of save_page_to_database (everything inside the try of
app.py lines 115-189). An error result is a rollback. -/
def savePageTx (env : SaveEnv) (db : DB) (report_id : Int) (page_data : JVal)
    (year month : Option Int) : Except String TxState :=
  match page_data with
  | JVal.obj pageKvs =>
    match pageNumInt pageKvs with
    | Except.error e => Except.error e
    | Except.ok page_number =>
      match iterElems (extractStatsList pageKvs) with
      | Except.error e => Except.error e
      | Except.ok stats =>
        match processStats env report_id year (periodOf month) page_number 0 ⟨db, 0, 0⟩ stats with
        | Except.error e => Except.error e
        | Except.ok st1 => processConviction env report_id year page_number pageKvs st1
  | _ => Except.error "AttributeError: page_data has no attribute get"

/-- save_page_to_database (app.py lines 104-198): False without touching the
store when the connection fails; otherwise run the transaction body, committing
the updated store on success and rolling back to the incoming store on any
failure. -/
def save_page_to_database (env : SaveEnv) (db : DB) (report_id : Int)
    (page_data : JVal) (year month : Option Int) : Bool × DB :=
  if env.connOk = false then (false, db)
  else
    match savePageTx env db report_id page_data year month with
    | Except.ok st => (true, st.db)
    | Except.error _ => (false, db)

/-- Environment of one clear_report_data call: connection success and an
injected per-table DELETE failure (caught and only warned about in the source). -/
structure ClearEnv where
  connOk : Bool
  tableFail : Nat → Bool

/-- clear_report_data (app.py lines 200-227): DELETE the rows of the report from
crime_statistics, pending_cases_by_head and conviction_stats; a failing table is
skipped with a warning; the rest commits. -/
def clear_report_data (env : ClearEnv) (db : DB) (report_id : Int) : Bool × DB :=
  if env.connOk = false then (false, db)
  else
    let db1 := if env.tableFail 0 then db
               else { db with facts := db.facts.filter (fun r => decide (r.report_id ≠ report_id)) }
    let db2 := if env.tableFail 1 then db1
               else { db1 with pending := db1.pending.filter (fun r => decide (r.report_id ≠ report_id)) }
    let db3 := if env.tableFail 2 then db2
               else { db2 with convictions := db2.convictions.filter (fun r => decide (r.report_id ≠ report_id)) }
    (true, db3)

/-- Outcome of the resume-lookup database access. -/
inductive DbAccess where
  | ok : DbAccess
  | connFail : DbAccess
  | queryFail : DbAccess
deriving Repr, DecidableEq

/-- SELECT MAX(page_number) FROM crime_statistics WHERE report_upload_id = r. -/
def sqlMaxPage (db : DB) (report_id : Int) : Option Int :=
  ((db.facts.filter (fun r => decide (r.report_id = report_id))).map
    (fun r => r.page_number)).max?

/-- get_last_processed_page (app.py lines 229-250): 0 when the connection or the
query fails, 0 when the maximum is NULL or falsy, the maximum otherwise. -/
def get_last_processed_page (acc : DbAccess) (db : DB) (report_id : Int) : Int :=
  match acc with
  | DbAccess.connFail => 0
  | DbAccess.queryFail => 0
  | DbAccess.ok =>
      match sqlMaxPage db report_id with
      | none => 0
      | some m => if m = 0 then 0 else m

/-- Outcome of the single HTTP inference request for one page: 200 with the
candidates envelope (parsed is the JSON parse of the raw text, none when the
text is not valid JSON), 200 without candidates, a non-200 status with the
optional parsed error body (none for an empty body), or an exception raised
while preparing the request. -/
inductive ApiOutcome where
  | ok (raw : String) (parsed : Option JVal) : ApiOutcome
  | noCandidates (body : JVal) : ApiOutcome
  | httpError (code : Nat) (body : Option JVal) : ApiOutcome
  | exn (msg : String) : ApiOutcome

/-- Response normalization plus page tagging (app.py lines 378-385): a list is
wrapped under crime_statistics when saving to the database; an object with a
rows key has that value copied to crime_statistics; then page_number is set.
Values that support neither operation raise TypeError. -/
def normalizeResult (saveToDb : Bool) (pageNum : Int) : JVal → Except String JVal
  | JVal.arr xs =>
      if saveToDb then
        Except.ok (JVal.obj (setKey [("crime_statistics", JVal.arr xs)] "page_number" (JVal.int pageNum)))
      else Except.error "TypeError: list indices must be integers"
  | JVal.obj kvs =>
      let kvs1 := if saveToDb then
                    match lookupKey kvs "rows" with
                    | some r => setKey kvs "crime_statistics" r
                    | none => kvs
                  else kvs
      Except.ok (JVal.obj (setKey kvs1 "page_number" (JVal.int pageNum)))
  | _ => Except.error "TypeError: response value does not support item assignment"

/-- Error record of a page whose response text is not valid JSON (app.py 394-400). -/
def errRecParse (pageNum : Int) (raw : String) : JVal :=
  JVal.obj [("page_number", JVal.int pageNum), ("raw_response", JVal.str raw),
            ("error", JVal.str "JSON parsing failed")]

/-- Error record of a 200 response without candidates (app.py 401-406). -/
def errRecNoCand (pageNum : Int) (body : JVal) : JVal :=
  JVal.obj [("page_number", JVal.int pageNum),
            ("error", JVal.str "No valid response from API"),
            ("raw_response", body)]

/-- Error record of a non-200 response (app.py 407-413). -/
def errRecHttp (pageNum : Int) (code : Nat) (body : Option JVal) : JVal :=
  JVal.obj [("page_number", JVal.int pageNum),
            ("error", JVal.str ("API request failed: " ++ toString code)),
            ("error_details", body.getD (JVal.obj [("error", JVal.str "Unknown error")]))]

/-- Error record of an exception raised while processing a page (app.py 415-419). -/
def errRecExn (pageNum : Int) (msg : String) : JVal :=
  JVal.obj [("page_number", JVal.int pageNum), ("error", JVal.str msg)]

/-- The record a page contributes to all_results, plus whether the page reached
the successful-parse branch (the only branch that persists). -/
def recordFor (saveToDb : Bool) (pageNum : Int) : ApiOutcome → JVal × Bool
  | ApiOutcome.ok raw parsed =>
      match parsed with
      | some v =>
          match normalizeResult saveToDb pageNum v with
          | Except.ok r => (r, true)
          | Except.error e => (errRecExn pageNum e, false)
      | none => (errRecParse pageNum raw, false)
  | ApiOutcome.noCandidates body => (errRecNoCand pageNum body, false)
  | ApiOutcome.httpError code body => (errRecHttp pageNum code body, false)
  | ApiOutcome.exn msg => (errRecExn pageNum msg, false)

/-- Observable side effects of a run, in execution order. A sleep event would be
a backoff delay; the translated loop never performs one because the source
contains no sleep call. -/
inductive PipeEvent where
  | clearData : PipeEvent
  | apiRequest (page : Nat) : PipeEvent
  | sleep (units : Nat) : PipeEvent
  | persistPage (page : Nat) : PipeEvent
  | skipPage (page : Nat) : PipeEvent
deriving Repr, DecidableEq

/-- Environment of one pipeline run. -/
structure RunEnv where
  api : Nat → ApiOutcome
  lookupAcc : DbAccess
  clearEnv : ClearEnv
  saveEnv : Nat → SaveEnv

/-- Python truthiness of the report_id argument. -/
def reportTruthy (report_id : Option Int) : Bool :=
  match report_id with
  | some r => decide (r ≠ 0)
  | none => false

/-- Resume logic run before the page loop (app.py lines 324-333): when saving
with a truthy report id, read the high-water mark; a positive mark becomes the
start index (no purge), otherwise the report rows are purged. Returns the start
index, the store after the purge (if any) and the emitted events. -/
def runPrep (env : RunEnv) (saveToDb : Bool) (report_id : Option Int) (db : DB) :
    Int × DB × List PipeEvent :=
  match report_id with
  | some r =>
      if saveToDb ∧ r ≠ 0 then
        if get_last_processed_page env.lookupAcc db r > 0 then
          (get_last_processed_page env.lookupAcc db r, db, [])
        else
          (0, (clear_report_data env.clearEnv db r).2, [PipeEvent.clearData])
      else (0, db, [])
  | none => (0, db, [])

/-- Request events of one page: one POST unless the exception was raised while
preparing the request. -/
def apiEvents (n : Nat) : ApiOutcome → List PipeEvent
  | ApiOutcome.exn _ => []
  | _ => [PipeEvent.apiRequest n]

/-- One non-skipped iteration of the page loop (app.py lines 343-419): build the
record for the page (appended to all_results in every branch), and in the
successful-parse branch with database saving persist it, threading the store. -/
def processPage (env : RunEnv) (saveToDb : Bool) (report_id : Option Int)
    (year month : Option Int) (n : Nat) (db : DB) : JVal × DB × List PipeEvent :=
  if (recordFor saveToDb (Int.ofNat n) (env.api n)).2 && saveToDb && reportTruthy report_id then
    match report_id with
    | some r =>
        ((recordFor saveToDb (Int.ofNat n) (env.api n)).1,
         (save_page_to_database (env.saveEnv n) db r
            (recordFor saveToDb (Int.ofNat n) (env.api n)).1 year month).2,
         apiEvents n (env.api n) ++ [PipeEvent.persistPage n])
    | none => ((recordFor saveToDb (Int.ofNat n) (env.api n)).1, db, apiEvents n (env.api n))
  else ((recordFor saveToDb (Int.ofNat n) (env.api n)).1, db, apiEvents n (env.api n))

/-- The page loop (app.py lines 335-419) over the 0-based page indices: pages
with ordinal at most the start index are skipped, the rest are processed in
order, threading the store. -/
def runPages (env : RunEnv) (saveToDb : Bool) (report_id : Option Int)
    (year month : Option Int) (startIndex : Int) :
    List Nat → DB → List JVal × DB × List PipeEvent
  | [], db => ([], db, [])
  | idx :: rest, db =>
      if Int.ofNat (idx + 1) ≤ startIndex then
        ((runPages env saveToDb report_id year month startIndex rest db).1,
         (runPages env saveToDb report_id year month startIndex rest db).2.1,
         PipeEvent.skipPage (idx + 1) ::
           (runPages env saveToDb report_id year month startIndex rest db).2.2)
      else
        ((processPage env saveToDb report_id year month (idx + 1) db).1 ::
           (runPages env saveToDb report_id year month startIndex rest
              (processPage env saveToDb report_id year month (idx + 1) db).2.1).1,
         (runPages env saveToDb report_id year month startIndex rest
            (processPage env saveToDb report_id year month (idx + 1) db).2.1).2.1,
         (processPage env saveToDb report_id year month (idx + 1) db).2.2 ++
           (runPages env saveToDb report_id year month startIndex rest
              (processPage env saveToDb report_id year month (idx + 1) db).2.1).2.2)

/-- Result of one pipeline run: all_results, the final store and the events. -/
structure RunResult where
  results : List JVal
  db : DB
  events : List PipeEvent

/-- extract_pdf_content_with_gemini (app.py lines 252-421) over a document of
numPages pages: the resume/purge prologue followed by the page loop. -/
def extract_pdf_content_with_gemini (env : RunEnv) (numPages : Nat) (saveToDb : Bool)
    (report_id : Option Int) (year month : Option Int) (db : DB) : RunResult :=
  ⟨(runPages env saveToDb report_id year month (runPrep env saveToDb report_id db).1
      (List.range numPages) (runPrep env saveToDb report_id db).2.1).1,
   (runPages env saveToDb report_id year month (runPrep env saveToDb report_id db).1
      (List.range numPages) (runPrep env saveToDb report_id db).2.1).2.1,
   (runPrep env saveToDb report_id db).2.2 ++
     (runPages env saveToDb report_id year month (runPrep env saveToDb report_id db).1
        (List.range numPages) (runPrep env saveToDb report_id db).2.1).2.2⟩

/-- The page_number field of a record. -/
def pageNumberOf (v : JVal) : JVal :=
  match v with
  | JVal.obj kvs => (lookupKey kvs "page_number").getD JVal.null
  | _ => JVal.null

/-- Number of HTTP requests made for page n during a run. -/
def requestCount (evs : List PipeEvent) (n : Nat) : Nat :=
  (evs.filter (fun e => match e with | PipeEvent.apiRequest p => decide (p = n) | _ => false)).length

/-- The backoff delays performed during a run, in order. -/
def sleepDelays (evs : List PipeEvent) : List Nat :=
  evs.filterMap (fun e => match e with | PipeEvent.sleep u => some u | _ => none)

/-- The fact rows of a report. -/
def factsFor (db : DB) (report_id : Int) : List FactRow :=
  db.facts.filter (fun r => decide (r.report_id = report_id))

/-- The pending rows of a report. -/
def pendingFor (db : DB) (report_id : Int) : List PendingRow :=
  db.pending.filter (fun r => decide (r.report_id = report_id))

/-- The conviction rows of a report. -/
def convFor (db : DB) (report_id : Int) : List ConvRow :=
  db.convictions.filter (fun r => decide (r.report_id = report_id))

/-- The labels currently stored in the dimension table. -/
def labelsOf (s : HeadsState) : List String := s.heads.map Prod.snd

/-- List extension: l2 is l1 with rows appended (inserts never remove rows). -/
def ListExt {α : Type} (l1 l2 : List α) : Prop := ∃ t, l2 = l1 ++ t

/-- Store extension by appends only (what a persist call can do). -/
def DB.Ext (d1 d2 : DB) : Prop :=
  ListExt d1.facts d2.facts ∧ ListExt d1.pending d2.pending ∧
  ListExt d1.convictions d2.convictions ∧ ListExt d1.heads.heads d2.heads.heads

/-- FactRow rate invariant: the stored rate is derived from the stored measures. -/
def FactOk (row : FactRow) : Prop :=
  row.detection_percent = detectionRate row.registered row.detected

/-- ConvRow invariants: the stored rate is derived from the stored counts, and a
stored decided of 0 certifies that convicted + acquitted was not positive. -/
def ConvOk (row : ConvRow) : Prop :=
  row.conviction_percent = convictionRate row.decided row.convicted ∧
  (row.decided = 0 → row.convicted + row.acquitted ≤ 0)

/-- Save environment with no injected failures. -/
def envAllOk : SaveEnv := ⟨true, fun _ => false, fun _ => false, fun _ => false⟩

/-- Save environment whose every data INSERT fails. -/
def envFail0 : SaveEnv := ⟨true, fun _ => true, fun _ => false, fun _ => false⟩

/-- Save environment where the head INSERT of loop iteration 1 raises a
non-duplicate error. -/
def envHeadErr1 : SaveEnv := ⟨true, fun _ => false, fun k => decide (k = 1), fun _ => false⟩

/-- Save environment where every head INSERT raises a non-duplicate error. -/
def envHeadErrAll : SaveEnv := ⟨true, fun _ => false, fun _ => true, fun _ => false⟩

/-- Clear environment with no injected failures. -/
def clearOk : ClearEnv := ⟨true, fun _ => false⟩

/-- One well-formed extracted stat row. -/
def statTheft : JVal :=
  JVal.obj [("crime_head", JVal.str "Theft"), ("registered", JVal.int 10),
            ("detected", JVal.int 5)]

/-- A second well-formed extracted stat row. -/
def statMurder : JVal :=
  JVal.obj [("crime_head", JVal.str "Murder"), ("registered", JVal.int 4),
            ("detected", JVal.int 2)]

/-- A normalized page record with one stat row. -/
def pageGood : JVal :=
  JVal.obj [("crime_statistics", JVal.arr [statTheft]), ("page_number", JVal.int 1)]

/-- A normalized page record with two stat rows. -/
def pageTwoStats : JVal :=
  JVal.obj [("crime_statistics", JVal.arr [statTheft, statMurder]),
            ("page_number", JVal.int 1)]

/-- A normalized page record whose only stat row has registered = -1. -/
def pageNeg : JVal :=
  JVal.obj [("page_number", JVal.int 1),
            ("crime_statistics", JVal.arr
              [JVal.obj [("crime_head", JVal.str "Theft"),
                         ("registered", JVal.int (-1)), ("detected", JVal.int 1)]])]

/-- The parsed error body of the overloaded-service response. -/
def body503 : JVal := JVal.obj [("error", JVal.str "overloaded")]

/-- Run environment whose every page request returns HTTP 503. -/
def env503 : RunEnv :=
  ⟨fun _ => ApiOutcome.httpError 503 (some body503), DbAccess.ok, clearOk, fun _ => envAllOk⟩

/-- Run environment: page 1 returns a non-JSON body, page 2 parses to an empty
object. -/
def envMixed : RunEnv :=
  ⟨fun n => if n = 1 then ApiOutcome.ok "not json" none
            else ApiOutcome.ok "obj" (some (JVal.obj [])),
   DbAccess.ok, clearOk, fun _ => envAllOk⟩

/-- Run environment whose pages all parse to the two-stat page, with the head
INSERT of loop iteration 1 failing during persistence. -/
def envTwoStats : RunEnv :=
  ⟨fun _ => ApiOutcome.ok "rows"
      (some (JVal.obj [("crime_statistics", JVal.arr [statTheft, statMurder])])),
   DbAccess.ok, clearOk, fun _ => envHeadErr1⟩

/-- Run environment whose resume lookup cannot reach the store. -/
def envConnFail : RunEnv :=
  ⟨fun _ => ApiOutcome.ok "obj" (some (JVal.obj [])), DbAccess.connFail, clearOk,
   fun _ => envAllOk⟩

/-- A store holding one committed fact row at page 5 for report 1. -/
def dbPage5 : DB :=
  ⟨emptyHeads, [⟨1, 1, some 2024, "Full Year", 10, 5, 5000, 5⟩], [], []⟩

/-- A store with rows for report 1 whose fact row has page_number 0 (a prior
aborted attempt from before the page_number column was populated): the
high-water mark reads 0 although rows exist. -/
def dbStale : DB :=
  ⟨emptyHeads, [⟨1, 1, some 2023, "Full Year", 7, 3, 4286, 0⟩],
   [⟨1, 1, 1, 2, 3, 4⟩], [⟨1, some 2023, 5, 2, 3, 4000, 0⟩]⟩

/-- The parsed object of the C8 counterexample: its canonical rows field holds a
non-list, there is no rows key, and the object itself carries row fields. -/
def kvsC8 : List (String × JVal) :=
  [("crime_statistics", JVal.int 7), ("crime_head", JVal.str "Theft"),
   ("registered", JVal.int 10), ("detected", JVal.int 5)]

/-- kvsC8 after normalization tagged with page_number 1. -/
def kvsC8n : List (String × JVal) := kvsC8 ++ [("page_number", JVal.int 1)]

end PdfApp

namespace PdfApp

theorem listExt_refl {α : Type} (l : List α) : ListExt l l := ⟨[], by simp⟩

theorem listExt_trans {α : Type} {l1 l2 l3 : List α} (h1 : ListExt l1 l2) (h2 : ListExt l2 l3) :
    ListExt l1 l3 := by
  obtain ⟨t1, rfl⟩ := h1
  obtain ⟨t2, rfl⟩ := h2
  exact ⟨t1 ++ t2, by simp⟩

theorem listExt_mem {α : Type} {l1 l2 : List α} (h : ListExt l1 l2) {a : α} (ha : a ∈ l1) :
    a ∈ l2 := by
  obtain ⟨t, rfl⟩ := h
  exact List.mem_append_left t ha

theorem dbExt_refl (d : DB) : DB.Ext d d :=
  ⟨listExt_refl _, listExt_refl _, listExt_refl _, listExt_refl _⟩

theorem dbExt_trans {d1 d2 d3 : DB} (h1 : DB.Ext d1 d2) (h2 : DB.Ext d2 d3) : DB.Ext d1 d3 :=
  ⟨listExt_trans h1.1 h2.1, listExt_trans h1.2.1 h2.2.1,
   listExt_trans h1.2.2.1 h2.2.2.1, listExt_trans h1.2.2.2 h2.2.2.2⟩

theorem raceStep_ext (race : Bool) (s : HeadsState) (nm : String) :
    ListExt s.heads (raceStep race s nm).heads := by
  unfold raceStep
  split
  · split
    · rename_i p hp
      unfold dbInsertHead at hp
      split at hp
      · cases hp
      · cases hp
        exact ⟨[(s.nextId, nm)], rfl⟩
    · exact listExt_refl _
  · exact listExt_refl _

theorem dbInsertHead_ext {s : HeadsState} {nm : String} {p : Nat × HeadsState}
    (hp : dbInsertHead s nm = Except.ok p) : ListExt s.heads p.2.heads := by
  unfold dbInsertHead at hp
  split at hp
  · cases hp
  · cases hp
    exact ⟨[(s.nextId, nm)], rfl⟩

theorem get_or_create_ext {race oe : Bool} {s : HeadsState} {h : JVal} {r : Option Nat}
    {s' : HeadsState}
    (hc : get_or_create_crime_head_id race oe s h = Except.ok (r, s')) :
    ListExt s.heads s'.heads := by
  unfold get_or_create_crime_head_id at hc
  split at hc
  · cases hc; exact listExt_refl _
  · split at hc
    · split at hc
      · cases hc; exact listExt_refl _
      · split at hc
        · cases hc; exact listExt_refl _
        · split at hc
          · rename_i p hp
            cases hc
            exact listExt_trans (raceStep_ext _ _ _) (dbInsertHead_ext hp)
          · split at hc
            · cases hc; exact raceStep_ext _ _ _
            · cases hc; exact raceStep_ext _ _ _
    · cases hc

end PdfApp

namespace PdfApp

theorem execFact_spec {env : SaveEnv} {st : TxState} {row : FactRow} {st' : TxState}
    (h : execFact env st row = Except.ok st') :
    st'.db.facts = st.db.facts ++ [row] ∧ st'.db.pending = st.db.pending ∧
    st'.db.convictions = st.db.convictions ∧ st'.db.heads = st.db.heads := by
  unfold execFact at h
  split at h
  · cases h
  · cases h; exact ⟨rfl, rfl, rfl, rfl⟩

theorem execPending_spec {env : SaveEnv} {st : TxState} {row : PendingRow} {st' : TxState}
    (h : execPending env st row = Except.ok st') :
    st'.db.pending = st.db.pending ++ [row] ∧ st'.db.facts = st.db.facts ∧
    st'.db.convictions = st.db.convictions ∧ st'.db.heads = st.db.heads := by
  unfold execPending at h
  split at h
  · cases h
  · cases h; exact ⟨rfl, rfl, rfl, rfl⟩

theorem execConv_spec {env : SaveEnv} {st : TxState} {row : ConvRow} {st' : TxState}
    (h : execConv env st row = Except.ok st') :
    st'.db.convictions = st.db.convictions ++ [row] ∧ st'.db.facts = st.db.facts ∧
    st'.db.pending = st.db.pending ∧ st'.db.heads = st.db.heads := by
  unfold execConv at h
  split at h
  · cases h
  · cases h; exact ⟨rfl, rfl, rfl, rfl⟩

theorem processStat_spec {env : SaveEnv} {i : Nat} {rid : Int} {y : Option Int}
    {per : String} {pn : Int} {st : TxState} {stat : JVal} {st' : TxState}
    (h : processStat env i rid y per pn st stat = Except.ok st') :
    DB.Ext st.db st'.db ∧
    (∀ row ∈ st'.db.facts, row ∈ st.db.facts ∨ FactOk row) ∧
    st'.db.convictions = st.db.convictions := by
  unfold processStat at h
  split at h
  · cases h
  · split at h
    · cases h
      exact ⟨dbExt_refl _, fun row hr => Or.inl hr, rfl⟩
    · split at h
      · cases h
      · rename_i rs hres
        split at h
        · cases h
          exact ⟨⟨listExt_refl _, listExt_refl _, listExt_refl _, get_or_create_ext hres⟩,
                 fun row hr => Or.inl hr, rfl⟩
        · split at h
          · cases h
            exact ⟨⟨listExt_refl _, listExt_refl _, listExt_refl _, get_or_create_ext hres⟩,
                   fun row hr => Or.inl hr, rfl⟩
          · split at h
            · cases h
            · split at h
              · cases h
              · split at h
                · cases h
                · rename_i st2 hf
                  split at h
                  · cases h
                  · split at h
                    · cases h
                    · split at h
                      · cases h
                      · split at h
                        · cases h
                        · split at h
                          · cases h
                          · rename_i st3 hp
                            cases h
                            have hfs := execFact_spec hf
                            have hps := execPending_spec hp
                            refine ⟨?_, ?_, ?_⟩
                            · refine ⟨?_, ?_, ?_, ?_⟩
                              · rw [hps.2.1, hfs.1]
                                exact ⟨_, rfl⟩
                              · rw [hps.1, hfs.2.1]
                                exact ⟨_, rfl⟩
                              · rw [hps.2.2.1, hfs.2.2.1]
                                exact listExt_refl _
                              · rw [hps.2.2.2, hfs.2.2.2]
                                exact get_or_create_ext hres
                            · intro row hr
                              rw [hps.2.1, hfs.1] at hr
                              rcases List.mem_append.mp hr with hl | hr1
                              · exact Or.inl hl
                              · refine Or.inr ?_
                                rcases List.mem_singleton.mp hr1 with rfl
                                rfl
                            · rw [hps.2.2.1, hfs.2.2.1]
end PdfApp

namespace PdfApp

theorem processStats_spec {env : SaveEnv} {rid : Int} {y : Option Int} {per : String}
    {pn : Int} : ∀ {i : Nat} {st : TxState} {stats : List JVal} {st' : TxState},
    processStats env rid y per pn i st stats = Except.ok st' →
    DB.Ext st.db st'.db ∧
    (∀ row ∈ st'.db.facts, row ∈ st.db.facts ∨ FactOk row) ∧
    st'.db.convictions = st.db.convictions := by
  intro i st stats
  induction stats generalizing i st with
  | nil =>
      intro st' h
      unfold processStats at h
      cases h
      exact ⟨dbExt_refl _, fun row hr => Or.inl hr, rfl⟩
  | cons stat rest ih =>
      intro st' h
      unfold processStats at h
      split at h
      · cases h
      · rename_i st1 h1
        have hs1 := processStat_spec h1
        have hs2 := ih h
        refine ⟨dbExt_trans hs1.1 hs2.1, ?_, hs2.2.2.trans hs1.2.2⟩
        intro row hr
        rcases hs2.2.1 row hr with h2 | hok
        · exact hs1.2.1 row h2
        · exact Or.inr hok

theorem convRowOk (rid : Int) (y : Option Int) (pn dec0 conv acq : Int) :
    ConvOk ⟨rid, y, inferDecided dec0 conv acq, conv, acq,
            convictionRate (inferDecided dec0 conv acq) conv, pn⟩ := by
  constructor
  · rfl
  · intro hz
    simp only [inferDecided] at hz
    by_cases hc : dec0 = 0 ∧ conv + acq > 0
    · rw [if_pos hc] at hz
      omega
    · simp only
      by_contra hpos
      exact hc ⟨by rw [if_neg hc] at hz; exact hz, by omega⟩

theorem processConvictionVal_spec {env : SaveEnv} {rid : Int} {y : Option Int}
    {pn : Int} {cv : JVal} {st st' : TxState}
    (h : processConvictionVal env rid y pn cv st = Except.ok st') :
    DB.Ext st.db st'.db ∧
    st'.db.facts = st.db.facts ∧
    (∀ row ∈ st'.db.convictions, row ∈ st.db.convictions ∨ ConvOk row) := by
  unfold processConvictionVal at h
  split at h
  · cases h
    exact ⟨dbExt_refl _, rfl, fun row hr => Or.inl hr⟩
  · split at h
    · cases h
    · split at h
      · cases h
      · split at h
        · cases h
        · have hcs := execConv_spec h
          refine ⟨⟨?_, ?_, ?_, ?_⟩, hcs.2.1, ?_⟩
          · rw [hcs.2.1]; exact listExt_refl _
          · rw [hcs.2.2.1]; exact listExt_refl _
          · rw [hcs.1]; exact ⟨_, rfl⟩
          · rw [hcs.2.2.2]; exact listExt_refl _
          · intro row hr
            rw [hcs.1] at hr
            rcases List.mem_append.mp hr with hl | hr1
            · exact Or.inl hl
            · refine Or.inr ?_
              rcases List.mem_singleton.mp hr1 with rfl
              exact convRowOk _ _ _ _ _ _

theorem savePageTx_spec {env : SaveEnv} {db : DB} {rid : Int} {page : JVal}
    {y m : Option Int} {st : TxState}
    (h : savePageTx env db rid page y m = Except.ok st) :
    DB.Ext db st.db ∧
    (∀ row ∈ st.db.facts, row ∈ db.facts ∨ FactOk row) ∧
    (∀ row ∈ st.db.convictions, row ∈ db.convictions ∨ ConvOk row) := by
  unfold savePageTx at h
  split at h
  · split at h
    · cases h
    · split at h
      · cases h
      · split at h
        · cases h
        · rename_i st1 h1
          unfold processConviction at h
          have hs1 := processStats_spec h1
          have hs2 := processConvictionVal_spec h
          refine ⟨dbExt_trans hs1.1 hs2.1, ?_, ?_⟩
          · intro row hr
            rw [hs2.2.1] at hr
            exact hs1.2.1 row hr
          · intro row hr
            rcases hs2.2.2 row hr with h2 | hok
            · rw [hs1.2.2] at h2
              exact Or.inl h2
            · exact Or.inr hok
  · cases h

theorem save_page_ext (env : SaveEnv) (db : DB) (rid : Int) (page : JVal)
    (y m : Option Int) :
    DB.Ext db (save_page_to_database env db rid page y m).2 := by
  unfold save_page_to_database
  split
  · exact dbExt_refl _
  · split
    · rename_i st hst
      exact (savePageTx_spec hst).1
    · exact dbExt_refl _

theorem save_page_rollback {env : SaveEnv} {db : DB} {rid : Int} {page : JVal}
    {y m : Option Int} {msg : String}
    (h : savePageTx env db rid page y m = Except.error msg) :
    save_page_to_database env db rid page y m = (false, db) := by
  unfold save_page_to_database
  split
  · rfl
  · rw [h]

end PdfApp

namespace PdfApp

theorem lookupKey_setKey_self (kvs : List (String × JVal)) (k : String) (v : JVal) :
    lookupKey (setKey kvs k v) k = some v := by
  induction kvs with
  | nil => simp [setKey, lookupKey]
  | cons p rest ih =>
      unfold setKey
      split
      · simp [lookupKey]
      · rename_i hne
        unfold lookupKey
        rw [if_neg hne]
        exact ih

theorem pageNumberOf_recordFor (saveToDb : Bool) (n : Int) (out : ApiOutcome) :
    pageNumberOf (recordFor saveToDb n out).1 = JVal.int n := by
  cases out with
  | ok raw parsed =>
      cases parsed with
      | none => rfl
      | some v =>
          cases v with
          | arr xs =>
              by_cases hs : saveToDb
              · simp [recordFor, normalizeResult, hs, pageNumberOf, lookupKey_setKey_self]
              · simp [recordFor, normalizeResult, hs, pageNumberOf, errRecExn, lookupKey]
          | obj kvs =>
              simp only [recordFor, normalizeResult]
              simp [pageNumberOf, lookupKey_setKey_self]
          | null => rfl
          | int m => rfl
          | bool b => rfl
          | str s => rfl
  | noCandidates body => rfl
  | httpError code body => rfl
  | exn msg => rfl

theorem processPage_record (env : RunEnv) (saveToDb : Bool) (rep : Option Int)
    (y m : Option Int) (n : Nat) (db : DB) :
    (processPage env saveToDb rep y m n db).1
      = (recordFor saveToDb (Int.ofNat n) (env.api n)).1 := by
  unfold processPage
  split
  · split <;> rfl
  · rfl

theorem processPage_ext (env : RunEnv) (saveToDb : Bool) (rep : Option Int)
    (y m : Option Int) (n : Nat) (db : DB) :
    DB.Ext db (processPage env saveToDb rep y m n db).2.1 := by
  unfold processPage
  split
  · split
    · exact save_page_ext _ _ _ _ _ _
    · exact dbExt_refl _
  · exact dbExt_refl _

theorem sleepDelays_apiEvents (n : Nat) (out : ApiOutcome) :
    sleepDelays (apiEvents n out) = [] := by
  cases out <;> rfl

theorem processPage_sleepDelays (env : RunEnv) (saveToDb : Bool) (rep : Option Int)
    (y m : Option Int) (n : Nat) (db : DB) :
    sleepDelays (processPage env saveToDb rep y m n db).2.2 = [] := by
  unfold processPage
  split
  · split
    · cases henv : env.api n <;>
        simp [sleepDelays, apiEvents, henv, List.filterMap_append]
    · exact sleepDelays_apiEvents n (env.api n)
  · exact sleepDelays_apiEvents n (env.api n)

theorem requestCount_apiEvents (n p : Nat) (out : ApiOutcome) :
    requestCount (apiEvents n out) p
      = if n = p then (match out with | ApiOutcome.exn _ => 0 | _ => 1) else 0 := by
  cases out <;> by_cases hnp : n = p <;>
    simp [requestCount, apiEvents, hnp, List.filter]

theorem processPage_requestCount (env : RunEnv) (saveToDb : Bool) (rep : Option Int)
    (y m : Option Int) (n : Nat) (db : DB) (p : Nat) :
    requestCount (processPage env saveToDb rep y m n db).2.2 p ≤ if n = p then 1 else 0 := by
  have hb : requestCount (apiEvents n (env.api n)) p ≤ if n = p then 1 else 0 := by
    rw [requestCount_apiEvents]
    split
    · cases env.api n <;> simp
    · simp
  unfold processPage
  split
  · split
    · unfold requestCount at hb ⊢
      rw [List.filter_append]
      simp only [List.length_append]
      have hz : (List.filter
          (fun e => match e with | PipeEvent.apiRequest q => decide (q = p) | _ => false)
          [PipeEvent.persistPage n]).length = 0 := by
        simp [List.filter]
      omega
    · exact hb
  · exact hb

theorem persistPage_processPage {env : RunEnv} {saveToDb : Bool} {rep : Option Int}
    {y m : Option Int} {n : Nat} {db : DB} {p : Nat}
    (h : PipeEvent.persistPage p ∈ (processPage env saveToDb rep y m n db).2.2) : p = n := by
  unfold processPage at h
  split at h
  · split at h
    · rcases List.mem_append.mp h with hl | hr
      · cases henv : env.api n <;> rw [henv] at hl <;> simp [apiEvents] at hl
      · rcases List.mem_singleton.mp hr with heq
        cases heq
        rfl
    · cases henv : env.api n <;> rw [henv] at h <;> simp [apiEvents] at h
  · cases henv : env.api n <;> rw [henv] at h <;> simp [apiEvents] at h

end PdfApp

namespace PdfApp

theorem runPages_results (env : RunEnv) (saveToDb : Bool) (rep : Option Int)
    (y m : Option Int) (si : Int) :
    ∀ (l : List Nat) (db : DB),
    (runPages env saveToDb rep y m si l db).1
      = (l.filter (fun i => decide (si < Int.ofNat (i + 1)))).map
          (fun i => (recordFor saveToDb (Int.ofNat (i + 1)) (env.api (i + 1))).1) := by
  intro l
  induction l with
  | nil => intro db; rfl
  | cons idx rest ih =>
      intro db
      unfold runPages
      split
      · rename_i hle
        simp only [Int.ofNat_eq_coe, Nat.cast_add, Nat.cast_one] at hle
        have hf : decide (si < Int.ofNat (idx + 1)) = false := by
          simp only [Int.ofNat_eq_coe, Nat.cast_add, Nat.cast_one, decide_eq_false_iff_not, not_lt]
          omega
        simp only [List.filter, hf]
        exact ih db
      · rename_i hgt
        simp only [Int.ofNat_eq_coe, Nat.cast_add, Nat.cast_one, not_le] at hgt
        have hf : decide (si < Int.ofNat (idx + 1)) = true := by
          simp only [Int.ofNat_eq_coe, Nat.cast_add, Nat.cast_one, decide_eq_true_eq]
          omega
        simp only [List.filter, hf]
        simp only [List.map]
        rw [processPage_record, ih]

theorem runPages_sleepDelays (env : RunEnv) (saveToDb : Bool) (rep : Option Int)
    (y m : Option Int) (si : Int) :
    ∀ (l : List Nat) (db : DB),
    sleepDelays (runPages env saveToDb rep y m si l db).2.2 = [] := by
  intro l
  induction l with
  | nil => intro db; rfl
  | cons idx rest ih =>
      intro db
      unfold runPages
      split
      · simp only [sleepDelays, List.filterMap]
        exact ih db
      · have h1 := processPage_sleepDelays env saveToDb rep y m (idx + 1) db
        unfold sleepDelays at h1 ⊢
        rw [List.filterMap_append, h1]
        simp only [List.nil_append]
        exact ih _

theorem runPages_requestCount_zero (env : RunEnv) (saveToDb : Bool) (rep : Option Int)
    (y m : Option Int) (si : Int) (p : Nat) :
    ∀ {l : List Nat} (db : DB), (∀ i ∈ l, i + 1 ≠ p) →
    requestCount (runPages env saveToDb rep y m si l db).2.2 p = 0 := by
  intro l
  induction l with
  | nil => intro db _; rfl
  | cons idx rest ih =>
      intro db hne
      unfold runPages
      split
      · have := ih db (fun i hi => hne i (List.mem_cons_of_mem idx hi))
        unfold requestCount at this ⊢
        simpa [List.filter] using this
      · have h1 := processPage_requestCount env saveToDb rep y m (idx + 1) db p
        rw [if_neg (hne idx (List.mem_cons_self idx rest))] at h1
        have h2 := ih ((processPage env saveToDb rep y m (idx + 1) db).2.1)
          (fun i hi => hne i (List.mem_cons_of_mem idx hi))
        unfold requestCount at h1 h2 ⊢
        rw [List.filter_append, List.length_append]
        omega

theorem runPages_requestCount_le_one (env : RunEnv) (saveToDb : Bool) (rep : Option Int)
    (y m : Option Int) (si : Int) (p : Nat) :
    ∀ {l : List Nat} (db : DB), l.Nodup →
    requestCount (runPages env saveToDb rep y m si l db).2.2 p ≤ 1 := by
  intro l
  induction l with
  | nil => intro db _; simp [runPages, requestCount, List.filter]
  | cons idx rest ih =>
      intro db hnd
      have hnd2 := (List.nodup_cons.mp hnd).2
      have hni := (List.nodup_cons.mp hnd).1
      unfold runPages
      split
      · have := ih db hnd2
        unfold requestCount at this ⊢
        simpa [List.filter] using this
      · have h1 := processPage_requestCount env saveToDb rep y m (idx + 1) db p
        by_cases hip : idx + 1 = p
        · have h2 : requestCount
              (runPages env saveToDb rep y m si rest
                ((processPage env saveToDb rep y m (idx + 1) db).2.1)).2.2 p = 0 := by
            refine runPages_requestCount_zero env saveToDb rep y m si p _ ?_
            intro i hi heq
            have hii : i = idx := by omega
            exact hni (hii ▸ hi)
          rw [if_pos hip] at h1
          dsimp only
          unfold requestCount at h1 h2 ⊢
          rw [List.filter_append, List.length_append]
          omega
        · rw [if_neg hip] at h1
          have h2 := ih ((processPage env saveToDb rep y m (idx + 1) db).2.1) hnd2
          dsimp only
          unfold requestCount at h1 h2 ⊢
          rw [List.filter_append, List.length_append]
          omega

end PdfApp

namespace PdfApp

theorem runPages_persist_gt (env : RunEnv) (saveToDb : Bool) (rep : Option Int)
    (y m : Option Int) (si : Int) {p : Nat} :
    ∀ {l : List Nat} {db : DB},
    PipeEvent.persistPage p ∈ (runPages env saveToDb rep y m si l db).2.2 →
    si < Int.ofNat p := by
  intro l
  induction l with
  | nil => intro db h; cases h
  | cons idx rest ih =>
      intro db h
      unfold runPages at h
      split at h
      · dsimp only at h
        rcases List.mem_cons.mp h with heq | hmem
        · cases heq
        · exact ih hmem
      · rename_i hgt
        dsimp only at h
        rcases List.mem_append.mp h with hl | hr
        · have := persistPage_processPage hl
          subst this
          simp only [Int.ofNat_eq_coe, Nat.cast_add, Nat.cast_one, not_le] at hgt ⊢
          omega
        · exact ih hr

theorem runPages_ext (env : RunEnv) (saveToDb : Bool) (rep : Option Int)
    (y m : Option Int) (si : Int) :
    ∀ (l : List Nat) (db : DB), DB.Ext db (runPages env saveToDb rep y m si l db).2.1 := by
  intro l
  induction l with
  | nil => intro db; exact dbExt_refl _
  | cons idx rest ih =>
      intro db
      unfold runPages
      split
      · exact ih db
      · exact dbExt_trans (processPage_ext env saveToDb rep y m (idx + 1) db) (ih _)

theorem runPages_no_clear (env : RunEnv) (saveToDb : Bool) (rep : Option Int)
    (y m : Option Int) (si : Int) :
    ∀ (l : List Nat) (db : DB),
    PipeEvent.clearData ∉ (runPages env saveToDb rep y m si l db).2.2 := by
  intro l
  induction l with
  | nil => intro db h; cases h
  | cons idx rest ih =>
      intro db h
      unfold runPages at h
      split at h
      · dsimp only at h
        rcases List.mem_cons.mp h with heq | hmem
        · cases heq
        · exact ih db hmem
      · dsimp only at h
        rcases List.mem_append.mp h with hl | hr
        · unfold processPage at hl
          split at hl
          · split at hl
            · rcases List.mem_append.mp hl with h2 | h3
              · cases henv : env.api (idx + 1) <;> rw [henv] at h2 <;> simp [apiEvents] at h2
              · simp at h3
            · cases henv : env.api (idx + 1) <;> rw [henv] at hl <;> simp [apiEvents] at hl
          · cases henv : env.api (idx + 1) <;> rw [henv] at hl <;> simp [apiEvents] at hl
        · exact ih _ hr

theorem clear_report_data_purges (env : ClearEnv) (db : DB) (r : Int)
    (hc : env.connOk = true) (ht : ∀ k, env.tableFail k = false) :
    factsFor (clear_report_data env db r).2 r = [] ∧
    pendingFor (clear_report_data env db r).2 r = [] ∧
    convFor (clear_report_data env db r).2 r = [] := by
  unfold clear_report_data
  rw [hc]
  simp only [ht, Bool.false_eq_true, if_false, if_neg]
  unfold factsFor pendingFor convFor
  refine ⟨?_, ?_, ?_⟩ <;> simp [List.filter_filter]

end PdfApp

namespace PdfApp

theorem lookupHead_none_not_mem {hs : List (Nat × String)} {nm : String}
    (h : lookupHead hs nm = none) : nm ∉ hs.map Prod.snd := by
  induction hs with
  | nil => simp
  | cons p rest ih =>
      unfold lookupHead at h
      split at h
      · cases h
      · rename_i hne
        simp only [List.map_cons, List.mem_cons]
        rintro (heq | hmem)
        · exact hne heq.symm
        · exact ih h hmem

theorem lookupHead_append {hs l2 : List (Nat × String)} {nm : String}
    (h : lookupHead hs nm = none) : lookupHead (hs ++ l2) nm = lookupHead l2 nm := by
  induction hs with
  | nil => rfl
  | cons p rest ih =>
      obtain ⟨i, s⟩ := p
      unfold lookupHead at h
      split at h
      · cases h
      · rename_i hne
        have hstep : lookupHead ((i, s) :: rest ++ l2) nm
            = if s = nm then some i else lookupHead (rest ++ l2) nm := rfl
        rw [hstep, if_neg hne]
        exact ih h

theorem nodup_append_singleton {l : List String} {nm : String}
    (h : l.Nodup) (hn : nm ∉ l) : (l ++ [nm]).Nodup := by
  simp [List.nodup_append, h, hn]

/-- After a successful miss-path insert on a state where the label is absent,
the store maps the label to the fresh id and stays duplicate free. -/
theorem dbInsertHead_ok_of_none {s : HeadsState} {nm : String}
    (h : lookupHead s.heads nm = none) :
    dbInsertHead s nm = Except.ok (s.nextId, ⟨s.heads ++ [(s.nextId, nm)], s.nextId + 1⟩) := by
  unfold dbInsertHead
  rw [h]
  rfl

theorem c6_branch_insert {s : HeadsState} {nm : String}
    (hn : lookupHead s.heads nm = none) (hnd : (labelsOf s).Nodup) :
    lookupHead (s.heads ++ [(s.nextId, nm)]) nm = some s.nextId ∧
    (labelsOf (⟨s.heads ++ [(s.nextId, nm)], s.nextId + 1⟩ : HeadsState)).Nodup := by
  constructor
  · rw [lookupHead_append hn]
    simp [lookupHead]
  · unfold labelsOf at hnd ⊢
    simp only [List.map_append, List.map_cons, List.map_nil]
    exact nodup_append_singleton hnd (lookupHead_none_not_mem hn)

end PdfApp

namespace PdfApp

/-- Claim C6: resolving the same label twice returns the same identifier and
never leaves two dimension rows with that label; a duplicate-key conflict
(concurrent creation, race = true) is answered by re-querying and returning the
existing identifier instead of failing. -/
theorem c6_resolver_idempotent (race1 race2 : Bool) (s : HeadsState) (label : String)
    (hnd : (labelsOf s).Nodup) (hlabel : label ≠ "") :
    ∃ i s1,
      get_or_create_crime_head_id race1 false s (JVal.str label) = Except.ok (some i, s1) ∧
      get_or_create_crime_head_id race2 false s1 (JVal.str label) = Except.ok (some i, s1) ∧
      (labelsOf s1).Nodup ∧
      (labelsOf s1).count (pyStrip label) ≤ 1 ∧
      lookupHead s1.heads (pyStrip label) = some i ∧
      s1.heads.length ≤ s.heads.length + 1 := by
  cases hl : lookupHead s.heads (pyStrip label) with
  | some i =>
      refine ⟨i, s, ?_, ?_, hnd, ?_, hl, ?_⟩
      · simp [get_or_create_crime_head_id, pyTruthy, hlabel, hl]
      · simp [get_or_create_crime_head_id, pyTruthy, hlabel, hl]
      · exact (List.nodup_iff_count_le_one.mp hnd) _
      · simp
  | none =>
      have hins := dbInsertHead_ok_of_none hl
      have hbr := c6_branch_insert hl hnd
      cases race1 with
      | false =>
          refine ⟨s.nextId, ⟨s.heads ++ [(s.nextId, (pyStrip label))], s.nextId + 1⟩,
                  ?_, ?_, hbr.2, ?_, hbr.1, ?_⟩
          · simp [get_or_create_crime_head_id, pyTruthy, hlabel, hl, raceStep, hins]
          · simp [get_or_create_crime_head_id, pyTruthy, hlabel, hbr.1]
          · exact (List.nodup_iff_count_le_one.mp hbr.2) _
          · simp
      | true =>
          have hrs : raceStep true s (pyStrip label)
              = ⟨s.heads ++ [(s.nextId, (pyStrip label))], s.nextId + 1⟩ := by
            unfold raceStep
            rw [hins]
            rfl
          have hdup : dbInsertHead
              (⟨s.heads ++ [(s.nextId, (pyStrip label))], s.nextId + 1⟩ : HeadsState) (pyStrip label)
              = Except.error () := by
            unfold dbInsertHead
            simp only [hbr.1, Option.isSome_some, if_pos]
          refine ⟨s.nextId, ⟨s.heads ++ [(s.nextId, (pyStrip label))], s.nextId + 1⟩,
                  ?_, ?_, hbr.2, ?_, hbr.1, ?_⟩
          · simp [get_or_create_crime_head_id, pyTruthy, hlabel, hl, hrs, hdup, hbr.1]
          · simp [get_or_create_crime_head_id, pyTruthy, hlabel, hbr.1]
          · exact (List.nodup_iff_count_le_one.mp hbr.2) _
          · simp

/-- Witness for C6 at a concrete store and label, with a concurrent creation on
the first call. -/
theorem c6_resolver_idempotent_witness :
    (labelsOf ⟨[(1, "Murder")], 2⟩).Nodup ∧ ("Theft" : String) ≠ "" ∧
    ∃ i s1,
      get_or_create_crime_head_id true false ⟨[(1, "Murder")], 2⟩ (JVal.str "Theft")
        = Except.ok (some i, s1) ∧
      get_or_create_crime_head_id false false s1 (JVal.str "Theft") = Except.ok (some i, s1) ∧
      (labelsOf s1).Nodup ∧
      (labelsOf s1).count (pyStrip ("Theft" : String)) ≤ 1 ∧
      lookupHead s1.heads (pyStrip ("Theft" : String)) = some i ∧
      s1.heads.length ≤ ([(1, "Murder")] : List (Nat × String)).length + 1 :=
  ⟨by decide, by decide,
   c6_resolver_idempotent true false ⟨[(1, "Murder")], 2⟩ "Theft" (by decide) (by decide)⟩

end PdfApp

namespace PdfApp

theorem runPrep_resume (env : RunEnv) (r : Int) (db : DB) (M : Int)
    (hacc : env.lookupAcc = DbAccess.ok) (hr : r ≠ 0)
    (hm : get_last_processed_page DbAccess.ok db r = M) (hpos : 0 < M) :
    runPrep env true (some r) db = (M, db, []) := by
  unfold runPrep
  dsimp only
  rw [hacc, hm]
  rw [if_pos ⟨rfl, hr⟩, if_pos hpos]

theorem runPrep_fresh (env : RunEnv) (r : Int) (db : DB)
    (hacc : env.lookupAcc = DbAccess.ok) (hr : r ≠ 0)
    (hm : get_last_processed_page DbAccess.ok db r = 0) :
    runPrep env true (some r) db
      = (0, (clear_report_data env.clearEnv db r).2, [PipeEvent.clearData]) := by
  unfold runPrep
  dsimp only
  rw [hacc, hm]
  rw [if_pos ⟨rfl, hr⟩, if_neg (by omega)]

theorem runPrep_events (env : RunEnv) (sdb : Bool) (rep : Option Int) (db : DB) :
    (runPrep env sdb rep db).2.2 = [] ∨ (runPrep env sdb rep db).2.2 = [PipeEvent.clearData] := by
  unfold runPrep
  cases rep with
  | none => exact Or.inl rfl
  | some r =>
      dsimp only
      split
      · split
        · exact Or.inl rfl
        · exact Or.inr rfl
      · exact Or.inl rfl

theorem record_mem_results (env : RunEnv) (N : Nat) (sdb : Bool) (rep : Option Int)
    (y m : Option Int) (db : DB) (idx : Nat) (hidx : idx < N)
    (hgt : (runPrep env sdb rep db).1 < Int.ofNat (idx + 1)) :
    (recordFor sdb (Int.ofNat (idx + 1)) (env.api (idx + 1))).1
      ∈ (extract_pdf_content_with_gemini env N sdb rep y m db).results := by
  unfold extract_pdf_content_with_gemini
  dsimp only
  rw [runPages_results]
  apply List.mem_map_of_mem
  exact List.mem_filter.mpr ⟨List.mem_range.mpr hidx, by simpa using hgt⟩

/-- Claim C5: a run that starts at the beginning of the document emits exactly
one record per page, with page_number values 1..N in order, regardless of how
many pages ended in a page-level error. -/
theorem c5_page_sequence (env : RunEnv) (N : Nat) (sdb : Bool) (rep : Option Int)
    (y m : Option Int) (db : DB)
    (h0 : (runPrep env sdb rep db).1 = 0) :
    (extract_pdf_content_with_gemini env N sdb rep y m db).results.length = N ∧
    (extract_pdf_content_with_gemini env N sdb rep y m db).results.map pageNumberOf
      = (List.range N).map (fun i => JVal.int (Int.ofNat (i + 1))) := by
  unfold extract_pdf_content_with_gemini
  dsimp only
  rw [h0, runPages_results]
  have hf : (List.range N).filter (fun i => decide ((0:Int) < Int.ofNat (i + 1)))
      = List.range N := by
    apply List.filter_eq_self.mpr
    intro a ha
    simp only [Int.ofNat_eq_coe, Nat.cast_add, Nat.cast_one, decide_eq_true_eq]
    omega
  rw [hf]
  constructor
  · simp
  · rw [List.map_map]
    apply List.map_congr_left
    intro i hi
    simp only [Function.comp_apply]
    exact pageNumberOf_recordFor sdb (Int.ofNat (i + 1)) (env.api (i + 1))

/-- Witness for C5: a two-page run in which page 1 fails to parse still emits
records for pages 1 and 2 in order. -/
theorem c5_page_sequence_witness :
    (extract_pdf_content_with_gemini envMixed 2 false none none none emptyDB).results.length = 2 ∧
    (extract_pdf_content_with_gemini envMixed 2 false none none none emptyDB).results.map
        pageNumberOf
      = (List.range 2).map (fun i => JVal.int (Int.ofNat (i + 1))) :=
  c5_page_sequence envMixed 2 false none none none emptyDB rfl

/-- Claim C3: resuming a run whose high-water mark is M with 0 < M performs no
persist for any page ordinal at most M, never purges, resumes at page M + 1,
and leaves the previously committed rows in place. -/
theorem c3_resume_skips (env : RunEnv) (N : Nat) (r : Int) (y m : Option Int)
    (db : DB) (M : Int)
    (hacc : env.lookupAcc = DbAccess.ok) (hr : r ≠ 0)
    (hm : get_last_processed_page DbAccess.ok db r = M) (hpos : 0 < M) :
    (∀ p, PipeEvent.persistPage p
        ∈ (extract_pdf_content_with_gemini env N true (some r) y m db).events →
        M < Int.ofNat p) ∧
    PipeEvent.clearData ∉ (extract_pdf_content_with_gemini env N true (some r) y m db).events ∧
    (extract_pdf_content_with_gemini env N true (some r) y m db).results.map pageNumberOf
      = ((List.range N).filter (fun i => decide (M < Int.ofNat (i + 1)))).map
          (fun i => JVal.int (Int.ofNat (i + 1))) ∧
    DB.Ext db (extract_pdf_content_with_gemini env N true (some r) y m db).db ∧
    (∀ row ∈ db.facts,
        row ∈ (extract_pdf_content_with_gemini env N true (some r) y m db).db.facts) := by
  have hprep := runPrep_resume env r db M hacc hr hm hpos
  unfold extract_pdf_content_with_gemini
  rw [hprep]
  dsimp only
  refine ⟨?_, ?_, ?_, ?_, ?_⟩
  · intro p hp
    rw [List.nil_append] at hp
    exact runPages_persist_gt env true (some r) y m M hp
  · intro hmem
    rw [List.nil_append] at hmem
    exact runPages_no_clear env true (some r) y m M _ _ hmem
  · rw [runPages_results]
    rw [List.map_map]
    apply List.map_congr_left
    intro i hi
    simp only [Function.comp_apply]
    exact pageNumberOf_recordFor true (Int.ofNat (i + 1)) (env.api (i + 1))
  · exact runPages_ext env true (some r) y m M _ _
  · intro row hrow
    exact listExt_mem (runPages_ext env true (some r) y m M _ _).1 hrow

/-- Witness for C3 at a store whose report-1 mark is 5 and a 7-page document:
the emitted page numbers are exactly 6 and 7 and the committed row survives. -/
theorem c3_resume_skips_witness :
    PipeEvent.clearData
      ∉ (extract_pdf_content_with_gemini envMixed 7 true (some 1) none none dbPage5).events ∧
    (extract_pdf_content_with_gemini envMixed 7 true (some 1) none none dbPage5).results.map
        pageNumberOf
      = ((List.range 7).filter (fun i => decide ((5:Int) < Int.ofNat (i + 1)))).map
          (fun i => JVal.int (Int.ofNat (i + 1))) ∧
    (⟨1, 1, some 2024, "Full Year", 10, 5, 5000, 5⟩ : FactRow)
      ∈ (extract_pdf_content_with_gemini envMixed 7 true (some 1) none none dbPage5).db.facts := by
  have h := c3_resume_skips envMixed 7 1 none none dbPage5 5 rfl (by decide) (by decide)
    (by decide)
  exact ⟨h.2.1, h.2.2.1, h.2.2.2.2 _ (by decide)⟩

/-- Claim C4: a run on a report whose high-water mark is 0 purges all previously
stored rows of that report (facts, pending, convictions) before the first page
persist: the purge is the first event and the store entering the page loop holds
no rows for the report. -/
theorem c4_fresh_run_purges (env : RunEnv) (N : Nat) (r : Int) (y m : Option Int)
    (db : DB)
    (hacc : env.lookupAcc = DbAccess.ok) (hr : r ≠ 0)
    (hm : get_last_processed_page DbAccess.ok db r = 0)
    (hc : env.clearEnv.connOk = true) (ht : ∀ k, env.clearEnv.tableFail k = false) :
    (extract_pdf_content_with_gemini env N true (some r) y m db).events
      = PipeEvent.clearData ::
          (runPages env true (some r) y m 0 (List.range N)
            (clear_report_data env.clearEnv db r).2).2.2 ∧
    factsFor (clear_report_data env.clearEnv db r).2 r = [] ∧
    pendingFor (clear_report_data env.clearEnv db r).2 r = [] ∧
    convFor (clear_report_data env.clearEnv db r).2 r = [] := by
  have hprep := runPrep_fresh env r db hacc hr hm
  have hpurge := clear_report_data_purges env.clearEnv db r hc ht
  unfold extract_pdf_content_with_gemini
  rw [hprep]
  exact ⟨rfl, hpurge.1, hpurge.2.1, hpurge.2.2⟩

/-- Witness for C4: stale rows for report 1 whose fact row sits at page 0 (mark
reads 0) are all purged before the loop of a 1-page run. -/
theorem c4_fresh_run_purges_witness :
    (extract_pdf_content_with_gemini envMixed 1 true (some 1) none none dbStale).events
      = PipeEvent.clearData ::
          (runPages envMixed true (some 1) none none 0 (List.range 1)
            (clear_report_data envMixed.clearEnv dbStale 1).2).2.2 ∧
    factsFor (clear_report_data envMixed.clearEnv dbStale 1).2 1 = [] ∧
    pendingFor (clear_report_data envMixed.clearEnv dbStale 1).2 1 = [] ∧
    convFor (clear_report_data envMixed.clearEnv dbStale 1).2 1 = [] :=
  c4_fresh_run_purges envMixed 1 1 none none dbStale rfl (by decide) (by decide) rfl
    (fun _ => rfl)

/-- Claim C9 (implicit): a failed resume lookup returns 0 exactly like an empty
report, so the run treats a possibly non-empty store as a fresh run: start index
0 and the purge is attempted first. -/
theorem c9_failed_lookup_fresh (env : RunEnv) (N : Nat) (r : Int) (y m : Option Int)
    (db : DB)
    (hfail : env.lookupAcc = DbAccess.connFail ∨ env.lookupAcc = DbAccess.queryFail)
    (hr : r ≠ 0) :
    get_last_processed_page env.lookupAcc db r = 0 ∧
    runPrep env true (some r) db
      = (0, (clear_report_data env.clearEnv db r).2, [PipeEvent.clearData]) ∧
    (extract_pdf_content_with_gemini env N true (some r) y m db).events.head?
      = some PipeEvent.clearData := by
  have hz : get_last_processed_page env.lookupAcc db r = 0 := by
    rcases hfail with h | h <;> rw [h] <;> rfl
  have hprep : runPrep env true (some r) db
      = (0, (clear_report_data env.clearEnv db r).2, [PipeEvent.clearData]) := by
    unfold runPrep
    dsimp only
    rw [hz]
    rw [if_pos ⟨rfl, hr⟩, if_neg (by omega)]
  refine ⟨hz, hprep, ?_⟩
  unfold extract_pdf_content_with_gemini
  rw [hprep]
  rfl

/-- Witness for C9: the store already holds a page-5 row for report 1, yet with
a failed connection the lookup reports 0 and the run starts with the purge. -/
theorem c9_failed_lookup_fresh_witness :
    get_last_processed_page envConnFail.lookupAcc dbPage5 1 = 0 ∧
    runPrep envConnFail true (some 1) dbPage5
      = (0, (clear_report_data envConnFail.clearEnv dbPage5 1).2, [PipeEvent.clearData]) ∧
    (extract_pdf_content_with_gemini envConnFail 3 true (some 1) none none dbPage5).events.head?
      = some PipeEvent.clearData :=
  c9_failed_lookup_fresh envConnFail 3 1 none none dbPage5 (Or.inl rfl) (by decide)

end PdfApp

namespace PdfApp

theorem requestCount_runPrep (env : RunEnv) (sdb : Bool) (rep : Option Int) (db : DB)
    (p : Nat) : requestCount (runPrep env sdb rep db).2.2 p = 0 := by
  rcases runPrep_events env sdb rep db with h | h <;> rw [h] <;> rfl

theorem sleepDelays_runPrep (env : RunEnv) (sdb : Bool) (rep : Option Int) (db : DB) :
    sleepDelays (runPrep env sdb rep db).2.2 = [] := by
  rcases runPrep_events env sdb rep db with h | h <;> rw [h] <;> rfl

/-- Claim C1 (amended): no page is ever retried and no backoff delay is ever
performed: every run sleeps for no delays and issues at most one request per
page; a page whose response text is not valid JSON contributes the raw-text
parse-error record, and a page answered with HTTP 503 immediately contributes
the API-failure error record, both without any retry. -/
theorem c1_no_retry (env : RunEnv) (N : Nat) (sdb : Bool) (rep : Option Int)
    (y m : Option Int) (db : DB) :
    sleepDelays (extract_pdf_content_with_gemini env N sdb rep y m db).events = [] ∧
    (∀ p, requestCount (extract_pdf_content_with_gemini env N sdb rep y m db).events p ≤ 1) ∧
    (∀ idx raw, idx < N → (runPrep env sdb rep db).1 < Int.ofNat (idx + 1) →
       env.api (idx + 1) = ApiOutcome.ok raw none →
       errRecParse (Int.ofNat (idx + 1)) raw
         ∈ (extract_pdf_content_with_gemini env N sdb rep y m db).results) ∧
    (∀ idx body, idx < N → (runPrep env sdb rep db).1 < Int.ofNat (idx + 1) →
       env.api (idx + 1) = ApiOutcome.httpError 503 body →
       errRecHttp (Int.ofNat (idx + 1)) 503 body
         ∈ (extract_pdf_content_with_gemini env N sdb rep y m db).results) := by
  refine ⟨?_, ?_, ?_, ?_⟩
  · unfold extract_pdf_content_with_gemini
    dsimp only
    unfold sleepDelays
    rw [List.filterMap_append]
    have h1 := sleepDelays_runPrep env sdb rep db
    have h2 := runPages_sleepDelays env sdb rep y m (runPrep env sdb rep db).1
      (List.range N) (runPrep env sdb rep db).2.1
    unfold sleepDelays at h1 h2
    rw [h1, h2]
    rfl
  · intro p
    unfold extract_pdf_content_with_gemini
    dsimp only
    unfold requestCount
    rw [List.filter_append, List.length_append]
    have h1 := requestCount_runPrep env sdb rep db p
    have h2 := runPages_requestCount_le_one env sdb rep y m (runPrep env sdb rep db).1 p
      (runPrep env sdb rep db).2.1 (List.nodup_range N)
    unfold requestCount at h1 h2
    omega
  · intro idx raw hidx hgt henv
    have := record_mem_results env N sdb rep y m db idx hidx hgt
    rw [henv] at this
    exact this
  · intro idx body hidx hgt henv
    have := record_mem_results env N sdb rep y m db idx hidx hgt
    rw [henv] at this
    exact this

/-- Witness for C1 (amended) on a one-page run answered with HTTP 503. -/
theorem c1_no_retry_witness :
    sleepDelays (extract_pdf_content_with_gemini env503 1 false none none none emptyDB).events
      = [] ∧
    requestCount (extract_pdf_content_with_gemini env503 1 false none none none emptyDB).events 1
      ≤ 1 ∧
    errRecHttp (Int.ofNat 1) 503 (some body503)
      ∈ (extract_pdf_content_with_gemini env503 1 false none none none emptyDB).results := by
  have h := c1_no_retry env503 1 false none none none emptyDB
  exact ⟨h.1, h.2.1 1, h.2.2.2 0 (some body503) (by decide) (by decide) rfl⟩

/-- Counterexample for C1 as stated: a page answered with HTTP 503 is not
retried 3 times with delays 2, 4, 8; the run makes exactly one request, performs
no delays at all, and produces the page error record immediately. -/
theorem c1_counterexample :
    (extract_pdf_content_with_gemini env503 1 false none none none emptyDB).events
      = [PipeEvent.apiRequest 1] ∧
    sleepDelays (extract_pdf_content_with_gemini env503 1 false none none none emptyDB).events
      = [] ∧
    sleepDelays (extract_pdf_content_with_gemini env503 1 false none none none emptyDB).events
      ≠ [2, 4, 8] ∧
    requestCount (extract_pdf_content_with_gemini env503 1 false none none none emptyDB).events 1
      = 1 ∧
    (extract_pdf_content_with_gemini env503 1 false none none none emptyDB).results
      = [errRecHttp 1 503 (some body503)] := by
  refine ⟨by decide, by decide, by decide, by decide, rfl⟩

/-- Claim C2: a failing insert step rolls the page transaction back (the store
is unchanged and the report high-water mark does not advance) while the persist
call reports failure; independently of any persistence outcome, the extraction
record of every processed page is present in the returned results. -/
theorem c2_rollback_preserves (env : SaveEnv) (db : DB) (rid : Int) (page : JVal)
    (y m : Option Int) (msg : String)
    (htx : savePageTx env db rid page y m = Except.error msg) :
    save_page_to_database env db rid page y m = (false, db) ∧
    get_last_processed_page DbAccess.ok (save_page_to_database env db rid page y m).2 rid
      = get_last_processed_page DbAccess.ok db rid ∧
    (∀ (renv : RunEnv) (N : Nat) (sdb : Bool) (rep : Option Int) (y2 m2 : Option Int)
       (db0 : DB) (idx : Nat), idx < N →
       (runPrep renv sdb rep db0).1 < Int.ofNat (idx + 1) →
       (recordFor sdb (Int.ofNat (idx + 1)) (renv.api (idx + 1))).1
         ∈ (extract_pdf_content_with_gemini renv N sdb rep y2 m2 db0).results) := by
  have h1 := save_page_rollback htx
  refine ⟨h1, by rw [h1], ?_⟩
  intro renv N sdb rep y2 m2 db0 idx hidx hgt
  exact record_mem_results renv N sdb rep y2 m2 db0 idx hidx hgt

/-- Witness for C2: a schedule failing every insert rolls back the concrete
page, and the record of the page of a concrete one-page run is in the results. -/
theorem c2_rollback_preserves_witness :
    save_page_to_database envFail0 emptyDB 1 pageGood (some 2024) none = (false, emptyDB) ∧
    (recordFor true (Int.ofNat 1) (envTwoStats.api 1)).1
      ∈ (extract_pdf_content_with_gemini envTwoStats 1 true (some 1) none none emptyDB).results := by
  have h := c2_rollback_preserves envFail0 emptyDB 1 pageGood (some 2024) none
    "DB error: INSERT crime_statistics failed" rfl
  exact ⟨h.1, h.2.2 envTwoStats 1 true (some 1) none none emptyDB 0 (by decide) (by decide)⟩

end PdfApp

namespace PdfApp

/-- Counterexample for C7 as stated: a stat row with registered = -1 commits a
fact row whose stored detection rate is 0, while the spec formula (rate 0 only
when registered = 0, the rounded quotient otherwise) yields -100.00. -/
theorem c7_counterexample :
    (save_page_to_database envAllOk emptyDB 1 pageNeg (some 2024) none).2.facts
      = [⟨1, 1, some 2024, "Full Year", -1, 1, 0, 1⟩] ∧
    specDetectionRate (-1) 1 = -10000 ∧
    (⟨1, 1, some 2024, "Full Year", -1, 1, 0, 1⟩ : FactRow).detection_percent
      ≠ specDetectionRate (-1) 1 := by
  refine ⟨by decide, by decide, by decide⟩

/-- Claim C7 (amended): every fact row a successful persist adds stores the
detection rate round(detected/registered*100, 2) when registered is positive
and 0 otherwise; every conviction row it adds stores decided replaced by
convicted + acquitted when decided was 0 and that sum positive (so a stored
decided of 0 certifies the sum was not positive), with the conviction rate
round(convicted/decided*100, 2) when decided is positive and 0 otherwise. -/
theorem c7_stored_rates (env : SaveEnv) (db : DB) (rid : Int) (page : JVal)
    (y m : Option Int) (db' : DB)
    (h : save_page_to_database env db rid page y m = (true, db')) :
    (∀ row ∈ db'.facts, row ∈ db.facts ∨ FactOk row) ∧
    (∀ row ∈ db'.convictions, row ∈ db.convictions ∨ ConvOk row) := by
  unfold save_page_to_database at h
  split at h
  · cases h
  · split at h
    · rename_i st hst
      cases h
      have hs := savePageTx_spec hst
      exact ⟨hs.2.1, hs.2.2⟩
    · cases h

/-- Witness for C7 (amended): the committed row of a concrete page satisfies
the stored-rate invariant. -/
theorem c7_stored_rates_witness :
    (⟨1, 1, some 2024, "Full Year", 10, 5, 5000, 1⟩ : FactRow) ∈ emptyDB.facts ∨
    FactOk ⟨1, 1, some 2024, "Full Year", 10, 5, 5000, 1⟩ :=
  (c7_stored_rates envAllOk emptyDB 1 pageGood (some 2024) none
      (save_page_to_database envAllOk emptyDB 1 pageGood (some 2024) none).2 rfl).1
    ⟨1, 1, some 2024, "Full Year", 10, 5, 5000, 1⟩ (by decide)

/-- Counterexample for C8 as stated: a parsed object without a rows key is
treated as already canonical, yet because its canonical rows field holds a
non-list the persister does not read the row list from that field: it wraps the
whole record instead. -/
theorem c8_counterexample :
    normalizeResult true 1 (JVal.obj kvsC8) = Except.ok (JVal.obj kvsC8n) ∧
    lookupKey kvsC8n "crime_statistics" = some (JVal.int 7) ∧
    extractStatsList kvsC8n = JVal.arr [JVal.obj kvsC8n] ∧
    JVal.arr [JVal.obj kvsC8n] ≠ JVal.int 7 := by
  refine ⟨rfl, rfl, rfl, fun h => JVal.noConfusion h⟩

/-- Claim C8 (amended): normalization applies, in order, list wrapping, rows
promotion, and identity on other objects; the persister reads the canonical
crime_statistics field when its value is a list (and the empty list when the
field is absent), and otherwise falls back to the rows key, then the data key,
then wrapping the whole record. -/
theorem c8_normalization :
    (∀ (xs : List JVal) (n : Int),
       normalizeResult true n (JVal.arr xs)
         = Except.ok (JVal.obj [("crime_statistics", JVal.arr xs),
                                ("page_number", JVal.int n)])) ∧
    (∀ (kvs : List (String × JVal)) (n : Int) (r : JVal),
       lookupKey kvs "rows" = some r →
       normalizeResult true n (JVal.obj kvs)
         = Except.ok (JVal.obj (setKey (setKey kvs "crime_statistics" r)
             "page_number" (JVal.int n)))) ∧
    (∀ (kvs : List (String × JVal)) (n : Int),
       lookupKey kvs "rows" = none →
       normalizeResult true n (JVal.obj kvs)
         = Except.ok (JVal.obj (setKey kvs "page_number" (JVal.int n)))) ∧
    (∀ (kvs : List (String × JVal)) (xs : List JVal),
       lookupKey kvs "crime_statistics" = some (JVal.arr xs) →
       extractStatsList kvs = JVal.arr xs) ∧
    (∀ (kvs : List (String × JVal)),
       lookupKey kvs "crime_statistics" = none → extractStatsList kvs = JVal.arr []) ∧
    (∀ (kvs : List (String × JVal)) (v r : JVal),
       lookupKey kvs "crime_statistics" = some v → (∀ ys, v ≠ JVal.arr ys) →
       lookupKey kvs "rows" = some r → extractStatsList kvs = r) := by
  refine ⟨?_, ?_, ?_, ?_, ?_, ?_⟩
  · intro xs n
    rfl
  · intro kvs n r hr
    unfold normalizeResult
    dsimp only
    rw [hr]
    rfl
  · intro kvs n hr
    unfold normalizeResult
    dsimp only
    rw [hr]
    rfl
  · intro kvs xs hcs
    unfold extractStatsList
    rw [hcs]
    rfl
  · intro kvs hcs
    unfold extractStatsList
    rw [hcs]
    rfl
  · intro kvs v r hcs hnl hr
    unfold extractStatsList
    rw [hcs]
    dsimp only
    cases v with
    | arr ys => exact absurd rfl (hnl ys)
    | null => rw [hr]; rfl
    | int k => rw [hr]; rfl
    | bool b => rw [hr]; rfl
    | str s => rw [hr]; rfl
    | obj o => rw [hr]; rfl

/-- Witness for C8 (amended) at concrete objects for the rows-promotion and the
canonical-field read. -/
theorem c8_normalization_witness :
    normalizeResult true 1 (JVal.obj [("rows", JVal.arr [statTheft])])
      = Except.ok (JVal.obj (setKey (setKey [("rows", JVal.arr [statTheft])]
          "crime_statistics" (JVal.arr [statTheft])) "page_number" (JVal.int 1))) ∧
    extractStatsList [("crime_statistics", JVal.arr [statTheft])] = JVal.arr [statTheft] := by
  have h := c8_normalization
  exact ⟨h.2.1 [("rows", JVal.arr [statTheft])] 1 (JVal.arr [statTheft]) rfl,
         h.2.2.2.1 [("crime_statistics", JVal.arr [statTheft])] [statTheft] rfl⟩

/-- Claim C10 (implicit): a stat row whose truthy label the resolver cannot turn
into an identifier is skipped without aborting the page transaction and without
touching the store or recording any error, so a page can commit with fewer rows
than were extracted: concretely, a two-row page whose second resolution fails
commits one fact row, and the corresponding pipeline run returns the page
record with no error field. -/
theorem c10_unresolved_head_skipped :
    (∀ (env : SaveEnv) (i : Nat) (rid : Int) (y : Option Int) (per : String)
       (pn : Int) (st : TxState) (stat ch : JVal) (h1 : HeadsState),
       pyGetD stat "crime_head" JVal.null = Except.ok ch →
       pyTruthy ch = true →
       get_or_create_crime_head_id (env.race i) (env.headErr i) st.db.heads ch
         = Except.ok (none, h1) →
       processStat env i rid y per pn st stat
         = Except.ok { st with db := { st.db with heads := h1 } }) ∧
    (save_page_to_database envHeadErr1 emptyDB 1 pageTwoStats (some 2024) none).1 = true ∧
    (save_page_to_database envHeadErr1 emptyDB 1 pageTwoStats (some 2024) none).2.facts.length
      = 1 ∧
    (extract_pdf_content_with_gemini envTwoStats 1 true (some 1) none none emptyDB).results
      = [JVal.obj [("crime_statistics", JVal.arr [statTheft, statMurder]),
                   ("page_number", JVal.int 1)]] ∧
    lookupKey [("crime_statistics", JVal.arr [statTheft, statMurder]),
               ("page_number", JVal.int 1)] "error" = none ∧
    (extract_pdf_content_with_gemini envTwoStats 1 true (some 1) none none emptyDB).db.facts.length
      = 1 := by
  refine ⟨?_, by decide, by decide, by rfl, by rfl, by decide⟩
  intro env i rid y per pn st stat ch h1 hch htr hres
  unfold processStat
  rw [hch]
  dsimp only
  rw [htr, hres]
  rfl

/-- Witness for C10 at a concrete stat whose resolver raises a non-duplicate
insert error: the transaction state is returned unchanged. -/
theorem c10_unresolved_head_skipped_witness :
    processStat envHeadErrAll 0 1 (some 2024) "Full Year" 1 ⟨emptyDB, 0, 0⟩ statTheft
      = Except.ok ⟨⟨emptyHeads, [], [], []⟩, 0, 0⟩ :=
  c10_unresolved_head_skipped.1 envHeadErrAll 0 1 (some 2024) "Full Year" 1
    ⟨emptyDB, 0, 0⟩ statTheft (JVal.str "Theft") emptyHeads rfl rfl rfl

end PdfApp
